import Mathlib

/-!
Verification development for the truth-echo-system repository.

The repository implements a hash-chained statement ledger (Supabase edge
function add-statement), an AI verification pipeline (verify-statement,
two revisions) and a query pipeline (ask-veritas, two revisions).
This file gives a shallow embedding in Lean of the code paths the claims
concern and proves or refutes each claim.

Conventions of the embedding:
- JavaScript 32-bit signed integers are modelled as Int values kept in
  the range [-2^31, 2^31) by an explicit reduction toInt32.
- The database table veritas_chain is modelled as a list of ChainEntry,
  newest row first; latestEntry (order by created_at descending, limit 1)
  is the head of the list, which coincides with the database behaviour
  for sequential appends with increasing timestamps.
- JavaScript string truthiness (s or fallback) is modelled by jsOr.
- The timestamp Date.now() is an explicit argument (now : Nat); the
  entry field created_at records the value used when the block hash was
  computed.
-/

set_option maxRecDepth 8192

/-- Reduction of an integer to JavaScript 32-bit signed semantics
(the effect of the bitwise operations in simpleHash). -/
def toInt32 (x : Int) : Int := (x + 2 ^ 31) % 2 ^ 32 - 2 ^ 31

/-- One loop iteration of simpleHash from add-statement (part_000 lines 12-16):
hash = ((hash << 5) - hash) + char, then hash = hash & hash.
The shift acts on the 32-bit value of hash (already reduced), producing a
32-bit result; the subtraction and addition are exact in doubles; the final
bitwise and reduces to 32 bits again. -/
def hashStep (h : Int) (c : Char) : Int :=
  toInt32 (toInt32 (h * 32) - h + c.toNat)

/-- The rolling hash loop of simpleHash over the UTF-16 code units of the
input (all inputs used by the claims are in the basic plane, where Lean
char codes and JavaScript charCodeAt agree). -/
def rollingHash (s : String) : Int := s.data.foldl hashStep 0

/-- Lowercase hex digit, as produced by Number.prototype.toString(16). -/
def hexDigitChar (n : Nat) : Char :=
  if n < 10 then Char.ofNat (48 + n) else Char.ofNat (87 + n)

/-- Digits of n in base 16, most significant first, with fuel. -/
def natToHexAux : Nat → Nat → List Char
  | 0, _ => []
  | fuel + 1, n =>
    if n < 16 then [hexDigitChar n]
    else natToHexAux fuel (n / 16) ++ [hexDigitChar (n % 16)]

/-- Math.abs(hash).toString(16): lowercase hex, no padding, "0" for 0. -/
def natToHex (n : Nat) : String := String.mk (natToHexAux (n + 1) n)

/-- simpleHash from part_000 lines 10-18: the 32-bit rolling hash of the
input string, then Math.abs and hex rendering. -/
def simpleHash (data : String) : String := natToHex (rollingHash data).natAbs

/-- JavaScript (s || d) for strings: the empty string is falsy. -/
def jsOr (s d : String) : String := if s = "" then d else s

/-- JavaScript (o || d) where o may be null/undefined (None) or a string. -/
def jsOrOpt (o : Option String) (d : String) : String :=
  match o with
  | some s => jsOr s d
  | none => d

/-- A row of the veritas_chain table (migration files; columns used by the
edge functions). id is the DB-generated opaque identifier. -/
structure ChainEntry where
  id : String
  statement : String
  speaker : String
  source_url : Option String
  statement_date : Option String
  statement_hash : String
  previous_hash : String
  block_hash : String
  created_at : Nat
  verification_status : Option String
  verification_confidence : Option String
deriving DecidableEq, Repr

/-- The request body of the add-statement function together with the
Date.now() value observed during the call. -/
structure AppendReq where
  statement : String
  speaker : String
  sourceUrl : Option String
  statementDate : Option String
  now : Nat
deriving DecidableEq, Repr

/-- Outcome of one add-statement call: a 400 validation response (part_000
lines 34-39) or the inserted row. -/
inductive AddResult where
  | validationError (status : Nat) (message : String)
  | added (e : ChainEntry)
deriving DecidableEq, Repr

def AddResult.isError : AddResult → Bool
  | .validationError _ _ => true
  | .added _ => false

/-- latestEntry: select block_hash order by created_at descending limit 1.
With the newest-first list model this is the head. -/
def latestBlockHash (ledger : List ChainEntry) : Option String :=
  ledger.head?.map (fun e => e.block_hash)

/-- previousHash := lastBlock?.block_hash || '0' (part_000 line 49). -/
def appendPreviousHash (ledger : List ChainEntry) : String :=
  match latestBlockHash ledger with
  | some h => jsOr h "0"
  | none => "0"

/-- The row the add-statement handler inserts (part_000 lines 52-68):
statementHash over statement ++ speaker ++ (sourceUrl || ''), blockHash
over statementHash ++ previousHash ++ Date.now().toString(). -/
def mkChainEntry (r : AppendReq) (previousHash : String) : ChainEntry :=
  let statementHash := simpleHash (r.statement ++ r.speaker ++ r.sourceUrl.getD "")
  { id := ""
    statement := r.statement
    speaker := r.speaker
    source_url := r.sourceUrl
    statement_date := r.statementDate
    statement_hash := statementHash
    previous_hash := previousHash
    block_hash := simpleHash (statementHash ++ previousHash ++ toString r.now)
    created_at := r.now
    verification_status := none
    verification_confidence := none }

/-- The add-statement handler (part_000 lines 32-77), acting on the table
model. Returns the response outcome and the updated table. -/
def addStatement (ledger : List ChainEntry) (r : AppendReq) :
    AddResult × List ChainEntry :=
  if r.statement = "" ∨ r.speaker = "" then
    (.validationError 400 "Statement and speaker are required", ledger)
  else
    let e := mkChainEntry r (appendPreviousHash ledger)
    (.added e, e :: ledger)

/-- Sequential (non-concurrent) execution of a list of add-statement calls
starting from a given table state. -/
def runAppendsFrom (s : List ChainEntry) (reqs : List AppendReq) : List ChainEntry :=
  reqs.foldl (fun led r => (addStatement led r).2) s

/-- Sequential appends from the empty ledger. -/
def runAppends (reqs : List AppendReq) : List ChainEntry :=
  runAppendsFrom [] reqs

/-- The block fingerprint of the tail of a (newest-first) table, or the
genesis sentinel for the empty table. -/
def prevOf (l : List ChainEntry) : String :=
  match l with
  | [] => "0"
  | e :: _ => e.block_hash

/-- Structural chain validity: each entry points at the block fingerprint
of its older neighbour and the oldest entry points at the sentinel. -/
def chainLinksOk : List ChainEntry → Bool
  | [] => true
  | e :: rest => (e.previous_hash == prevOf rest) && chainLinksOk rest

/-- Recomputing an entry block fingerprint from its stored inputs
(statement_hash, previous_hash, append timestamp) matches the stored value. -/
def recomputeOk (e : ChainEntry) : Bool :=
  e.block_hash == simpleHash (e.statement_hash ++ e.previous_hash ++ toString e.created_at)

/-- Look up the table row carrying a given block fingerprint. -/
def findByBlockHash (table : List ChainEntry) (h : String) : Option ChainEntry :=
  table.find? (fun e => e.block_hash == h)

/-- Replaying the chain: follow a previous_hash pointer through the table,
counting hops, until the genesis sentinel is reached. -/
def followHops (table : List ChainEntry) : Nat → String → Option Nat
  | 0, ptr => if ptr = "0" then some 0 else none
  | fuel + 1, ptr =>
    if ptr = "0" then some 0
    else
      match findByBlockHash table ptr with
      | none => none
      | some e => (followHops table fuel e.previous_hash).map (· + 1)

/-- Number of hops a replay from the current tail takes to reach the
genesis sentinel (following previous_hash pointers backward). -/
def replayHopsFromTail (table : List ChainEntry) : Option Nat :=
  match table with
  | [] => some 0
  | tailEntry :: _ =>
    (followHops table table.length tailEntry.previous_hash).map (· + 1)

/-!
JSON values and a model of JSON.parse.

The verify-statement handlers feed the oracle content through
JSON.parse and branch on failure, so the embedding needs an executable
parse function. jsonParse implements the JSON grammar restricted to the
forms relevant here: strings with the common escapes, integers (numbers
with fraction or exponent parts are rejected by the model), arrays,
objects, true, false, null, with whitespace, and requires the whole
input to be consumed.
-/

inductive Json where
  | null
  | bool (b : Bool)
  | num (n : Int)
  | str (s : String)
  | arr (elems : List Json)
  | obj (fields : List (String × Json))

def isWsChar (c : Char) : Bool :=
  c = ' ' || c = '\n' || c = '\t' || c = '\r'

def skipWs : List Char → List Char
  | [] => []
  | c :: cs => if isWsChar c then skipWs cs else c :: cs

/-- Scan a JSON string body after the opening quote; returns the decoded
characters and the rest of the input. -/
def scanStr : List Char → Option (List Char × List Char)
  | [] => none
  | '"' :: cs => some ([], cs)
  | '\\' :: e :: cs =>
    let dec : Option Char :=
      if e = '"' then some '"'
      else if e = '\\' then some '\\'
      else if e = '/' then some '/'
      else if e = 'n' then some '\n'
      else if e = 't' then some '\t'
      else if e = 'r' then some '\r'
      else none
    match dec with
    | none => none
    | some d => (scanStr cs).map (fun p => (d :: p.1, p.2))
  | c :: cs => (scanStr cs).map (fun p => (c :: p.1, p.2))

/-- Longest leading run of decimal digits. -/
def scanDigits : List Char → List Char × List Char
  | [] => ([], [])
  | c :: cs =>
    if c.isDigit then
      let p := scanDigits cs
      (c :: p.1, p.2)
    else ([], c :: cs)

def digitsToNat (ds : List Char) : Nat :=
  ds.foldl (fun n c => n * 10 + (c.toNat - 48)) 0

/-- Expect a literal keyword tail (the rue of true, etc.). -/
def expectLit (lit : List Char) (cs : List Char) (v : Json) :
    Option (Json × List Char) :=
  if lit.isPrefixOf cs then some (v, cs.drop lit.length) else none

/-- Reject number forms the model does not cover (fractions, exponents). -/
def numTail (n : Int) (r : List Char) : Option (Json × List Char) :=
  match r with
  | c :: _ => if c = '.' || c = 'e' || c = 'E' then none else some (Json.num n, r)
  | [] => some (Json.num n, [])

mutual

def parseVal (fuel : Nat) (cs : List Char) : Option (Json × List Char) :=
  match fuel with
  | 0 => none
  | fuel' + 1 =>
    match skipWs cs with
    | [] => none
    | c :: cs' =>
      if c = '"' then (scanStr cs').map (fun p => (Json.str (String.mk p.1), p.2))
      else if c = '\x7b' then parseObjBody fuel' cs'
      else if c = '[' then parseArrBody fuel' cs'
      else if c = 't' then expectLit ['r', 'u', 'e'] cs' (Json.bool true)
      else if c = 'f' then expectLit ['a', 'l', 's', 'e'] cs' (Json.bool false)
      else if c = 'n' then expectLit ['u', 'l', 'l'] cs' Json.null
      else if c = '-' then
        match scanDigits cs' with
        | ([], _) => none
        | (ds, r) => numTail (-(Int.ofNat (digitsToNat ds))) r
      else if c.isDigit then
        match scanDigits (c :: cs') with
        | (ds, r) => numTail (Int.ofNat (digitsToNat ds)) r
      else none

/-- Array contents just after the opening bracket. -/
def parseArrBody (fuel : Nat) (cs : List Char) : Option (Json × List Char) :=
  match fuel with
  | 0 => none
  | fuel' + 1 =>
    match skipWs cs with
    | ']' :: r => some (Json.arr [], r)
    | rest => (parseArrItems fuel' rest).map (fun p => (Json.arr p.1, p.2))

/-- One or more comma-separated array elements. -/
def parseArrItems (fuel : Nat) (cs : List Char) : Option (List Json × List Char) :=
  match fuel with
  | 0 => none
  | fuel' + 1 =>
    match parseVal fuel' cs with
    | none => none
    | some (v, r1) =>
      match skipWs r1 with
      | ',' :: r2 => (parseArrItems fuel' r2).map (fun p => (v :: p.1, p.2))
      | ']' :: r2 => some ([v], r2)
      | _ => none

/-- Object contents just after the opening brace. -/
def parseObjBody (fuel : Nat) (cs : List Char) : Option (Json × List Char) :=
  match fuel with
  | 0 => none
  | fuel' + 1 =>
    match skipWs cs with
    | '\x7d' :: r => some (Json.obj [], r)
    | rest => (parseObjItems fuel' rest).map (fun p => (Json.obj p.1, p.2))

/-- One or more comma-separated key-value members. -/
def parseObjItems (fuel : Nat) (cs : List Char) :
    Option (List (String × Json) × List Char) :=
  match fuel with
  | 0 => none
  | fuel' + 1 =>
    match skipWs cs with
    | '"' :: r0 =>
      match scanStr r0 with
      | none => none
      | some (key, r1) =>
        match skipWs r1 with
        | ':' :: r2 =>
          match parseVal fuel' r2 with
          | none => none
          | some (v, r3) =>
            match skipWs r3 with
            | ',' :: r4 =>
              (parseObjItems fuel' r4).map
                (fun p => ((String.mk key, v) :: p.1, p.2))
            | '\x7d' :: r4 => some ([(String.mk key, v)], r4)
            | _ => none
        | _ => none
    | _ => none

end

/-- JSON.parse: parse one value and require only whitespace to remain. -/
def jsonParse (s : String) : Option Json :=
  match parseVal (s.length + 2) s.data with
  | some (v, rest) => if skipWs rest = [] then some v else none
  | none => none

/-- JavaScript truthiness of a parsed JSON value (the check
required-field absence uses: missing, null, false, 0, empty string are
falsy; arrays and objects, even empty, are truthy). -/
def jsTruthy : Json → Bool
  | Json.null => false
  | Json.bool b => b
  | Json.num n => n != 0
  | Json.str s => s != ""
  | Json.arr _ => true
  | Json.obj _ => true

/-- Property lookup on an object built by JSON.parse: with duplicate keys
the later occurrence wins, so the last binding is read. -/
def lookupField (kvs : List (String × Json)) (name : String) : Option Json :=
  (kvs.reverse.find? (fun kv => kv.1 == name)).map (fun kv => kv.2)

/-!
Verification pipeline (verify-statement).

Two revisions exist in the repository: part_001 (the handler taking the
statement directly, with per-missing-field defaulting) and
src/supabase/functions/verify-statement/index.ts (taking a statementId,
without defaulting). Both share the parse-failure fallback object.
-/

/-- The seven fields the verification prompt requires, as JSON values.
For a parsed object this records exactly the values of the seven named
properties after the handler finishes with them. -/
structure Verification where
  status : Json
  confidence : Json
  keyFacts : Json
  issues : Json
  context : Json
  recommendation : Json
  reasoning : Json

/-- The fallback object built when the oracle content cannot be used as
JSON (part_001 lines 162-170 and index.ts lines 101-109). -/
def fallbackVerification (content : String) : Verification :=
  { status := Json.str "UNVERIFIED"
    confidence := Json.str "LOW"
    reasoning := Json.str content
    keyFacts := Json.arr []
    issues := Json.arr [Json.str "AI response parsing failed"]
    context := Json.str ""
    recommendation := Json.str "Manual review required" }

/-- Missing-field defaulting of part_001 lines 142-156: a field is
treated as missing when absent or falsy; keyFacts and issues default to
the empty array, status to UNVERIFIED, confidence to LOW, every other
field to the Not provided placeholder. -/
def fieldDefault (kvs : List (String × Json)) (name : String) (dflt : Json) : Json :=
  match lookupField kvs name with
  | some v => if jsTruthy v then v else dflt
  | none => dflt

/-- The content-parsing step of part_001 lines 136-171.
A parsed object goes through missing-field defaulting. A parsed array is
an object without any of the seven named properties, so all of them are
defaulted (property assignment succeeds on arrays). A parsed primitive or
null makes the strict-mode property assignment throw inside the same try
block, landing in the same catch as a parse failure, as does content that
is not valid JSON. -/
def parseVerification1 (content : String) : Verification :=
  match jsonParse content with
  | some (Json.obj kvs) =>
    { status := fieldDefault kvs "status" (Json.str "UNVERIFIED")
      confidence := fieldDefault kvs "confidence" (Json.str "LOW")
      keyFacts := fieldDefault kvs "keyFacts" (Json.arr [])
      issues := fieldDefault kvs "issues" (Json.arr [])
      context := fieldDefault kvs "context" (Json.str "Not provided")
      recommendation := fieldDefault kvs "recommendation" (Json.str "Not provided")
      reasoning := fieldDefault kvs "reasoning" (Json.str "Not provided") }
  | some (Json.arr _) =>
    { status := Json.str "UNVERIFIED"
      confidence := Json.str "LOW"
      keyFacts := Json.arr []
      issues := Json.arr []
      context := Json.str "Not provided"
      recommendation := Json.str "Not provided"
      reasoning := Json.str "Not provided" }
  | some _ => fallbackVerification content
  | none => fallbackVerification content

/-- The content-parsing step of index.ts lines 94-110: no field
validation; a successfully parsed value is used as is, otherwise the
fallback object is built. -/
def verifyParse0 (content : String) : Json :=
  match jsonParse content with
  | some v => v
  | none =>
    Json.obj
      [("status", Json.str "UNVERIFIED"),
       ("confidence", Json.str "LOW"),
       ("reasoning", Json.str content),
       ("keyFacts", Json.arr []),
       ("issues", Json.arr [Json.str "AI response parsing failed"]),
       ("context", Json.str ""),
       ("recommendation", Json.str "Manual review required")]

/-- Outcome of the database insert attempted while persisting a
verification result. -/
inductive StoreOutcome where
  | ok
  | failure (e : String)
deriving DecidableEq, Repr

/-- The row inserted by part_001 lines 176-222: a NEW chain row carrying
the verification fields, hashed with SHA-256 over statement ++ speaker
and over hashHex ++ previousHash ++ Date.now(). The digest itself is an
external primitive (crypto.subtle) whose value no claim depends on, so it
is a parameter sha of the model. The verification status and confidence
columns receive the JSON field values; for the claims they are strings,
rendered here by jsonText. -/
def jsonText : Json → String
  | Json.str s => s
  | Json.null => "null"
  | Json.bool b => if b then "true" else "false"
  | Json.num n => toString n
  | Json.arr _ => ""
  | Json.obj _ => ""

def insertVerified (sha : String → String) (ledger : List ChainEntry)
    (statement speaker : String) (sourceUrl statementDate : Option String)
    (ver : Verification) (now : Nat) : List ChainEntry :=
  let hashHex := sha (statement ++ speaker)
  let previousHash :=
    match latestBlockHash ledger with
    | some h => jsOr h "0"
    | none => "0"
  let blockHash := sha (hashHex ++ previousHash ++ toString now)
  let e : ChainEntry :=
    { id := ""
      statement := statement
      speaker := speaker
      source_url := sourceUrl
      statement_date := statementDate
      statement_hash := hashHex
      previous_hash := previousHash
      block_hash := blockHash
      created_at := now
      verification_status := some (jsonText ver.status)
      verification_confidence := some (jsonText ver.confidence) }
  e :: ledger

/-- The response part_001 lines 228-236 returns on success. -/
structure VerifyResponse where
  status : Nat
  statement : String
  speaker : String
  verification : Verification

/-- The tail of the part_001 handler after the verification value is
built (lines 175-236): tries to persist a new row when statement and
speaker are truthy, swallows a store failure (the catch only logs), and
returns the 200 response with the verification either way. -/
def verifyFinish (sha : String → String) (ledger : List ChainEntry)
    (statement : String) (speaker sourceUrl statementDate : Option String)
    (ver : Verification) (now : Nat) (db : StoreOutcome) :
    List ChainEntry × VerifyResponse :=
  let ledger' :=
    if statement ≠ "" ∧ jsOrOpt speaker "" ≠ "" then
      match db with
      | .ok => insertVerified sha ledger statement (speaker.getD "") sourceUrl statementDate ver now
      | .failure _ => ledger
    else ledger
  (ledger',
   { status := 200
     statement := statement
     speaker := jsOrOpt speaker "Unknown"
     verification := ver })

/-!
Query pipeline (ask-veritas).

The file src/supabase/functions/ask-veritas/index.ts holds two revisions.
Revision 1 (lines 9-390): oracle-assisted selection over the most recent
50 rows, with fallbackToDirectSearch on search-oracle failure and
degraded in-band responses on answer-oracle failure.
Revision 2 (lines 398-551): full-text search with keyword fallback, a
missing-API-key summary path, and a thrown error (caught as a 500) on
answer-oracle failure.
Network and database effects are passed in as outcome values; the
keyword fallback query is evaluated against the table model.
-/

/-- The source summary records every ask response carries. -/
structure SourceRec where
  statement : String
  speaker : String
  date : Option String
  source_url : Option String
  block_hash : String
deriving DecidableEq, Repr

def toSource (e : ChainEntry) : SourceRec :=
  { statement := e.statement
    speaker := e.speaker
    date := e.statement_date
    source_url := e.source_url
    block_hash := e.block_hash }

/-- An ask response: an error status with message, or a success payload
with answer, sources, confidence and the optional in-band error field the
degraded revision-1 responses carry. -/
inductive AskResponse where
  | err (status : Nat) (message : String)
  | ok (answer : String) (sources : List SourceRec) (confidence : String)
      (errorInfo : Option String)
deriving DecidableEq, Repr

def AskResponse.isOk : AskResponse → Bool
  | .ok _ _ _ _ => true
  | .err _ _ => false

def AskResponse.confidenceOf : AskResponse → Option String
  | .ok _ _ c _ => some c
  | .err _ _ => none

def AskResponse.sourcesOf : AskResponse → Option (List SourceRec)
  | .ok _ s _ _ => some s
  | .err _ _ => none

/-- Outcome of one oracle (Mistral) round trip. -/
inductive OracleOutcome where
  | netError (msg : String)
  | httpError (status : Nat) (body : String)
  | badJson (body : String)
  | badShape (body : String)
  | content (text : String)
deriving DecidableEq, Repr

def OracleOutcome.isContent : OracleOutcome → Bool
  | .content _ => true
  | _ => false

/-- Outcome of a database read: the data rows, or an error (in which
case the data variable is null). -/
inductive QueryOutcome where
  | rows (rs : List ChainEntry)
  | failure (e : String)
deriving DecidableEq, Repr

/-- The per-entry context block both revisions build. -/
def entryContext (e : ChainEntry) : String :=
  "Statement: \"" ++ e.statement ++ "\"\nSpeaker: " ++ e.speaker ++
    "\nDate: " ++ jsOrOpt e.statement_date "Unknown" ++
    "\nSource: " ++ jsOrOpt e.source_url "No source provided"

def contextOf (rs : List ChainEntry) : String :=
  String.intercalate "\n\n" (rs.map entryContext)

/-- hay contains sub as a contiguous run. -/
def listStartsWith : List Char → List Char → Bool
  | _, [] => true
  | [], _ :: _ => false
  | a :: as, b :: bs => a == b && listStartsWith as bs

def listHasSub : List Char → List Char → Bool
  | [], sub => sub.isEmpty
  | a :: t, sub => listStartsWith (a :: t) sub || listHasSub t sub

/-- ASCII lowering, the fragment of toLowerCase the claims exercise. -/
def strToLower (s : String) : String :=
  String.mk (s.data.map Char.toLower)

/-- JavaScript split(' '): cut at every single space, keeping empty
pieces for consecutive, leading or trailing spaces. -/
def splitSpaceAux : List Char → List Char → List String
  | [], acc => [String.mk acc.reverse]
  | c :: cs, acc =>
    if c = ' ' then String.mk acc.reverse :: splitSpaceAux cs []
    else splitSpaceAux cs (c :: acc)

def jsSplitSpace (s : String) : List String := splitSpaceAux s.data []

/-- Case-insensitive substring match, the semantics of the
statement.ilike.%word% filters (words containing PostgREST separator or
wildcard characters are not modelled). -/
def ilikeContains (hay needle : String) : Bool :=
  listHasSub (strToLower hay).data (strToLower needle).data

/-- query.toLowerCase().split(' ').filter(word => word.length > 2) -/
def queryKeywords (query : String) : List String :=
  (jsSplitSpace (strToLower query)).filter (fun w => w.length > 2)

/-- The keyword-fallback database query both revisions issue when the
full-text search errors: OR of case-insensitive substring matches of
every keyword against statement, limit 5. -/
def keywordSearch (table : List ChainEntry) (query : String) : List ChainEntry :=
  let words := queryKeywords query
  (table.filter (fun e => words.any (fun w => ilikeContains e.statement w))).take 5

def noResultsMsg : String :=
  "I couldn\x27t find any relevant statements in the Veritas database for your query."

def foundSummaryMsg (n : Nat) : String :=
  "Based on the Veritas database, I found " ++ toString n ++
    " relevant statement(s) that might answer your query."

/-- fallbackToDirectSearch of revision 1 (lines 318-390): full-text
search, then on search error the keyword fallback, answering with a
medium-confidence database summary when rows were found. -/
def fallbackToDirectSearch (table : List ChainEntry) (query : String)
    (fullText : QueryOutcome) : AskResponse :=
  match fullText with
  | .failure _ =>
    let fallbackStatements := keywordSearch table query
    if fallbackStatements.isEmpty then .ok noResultsMsg [] "low" none
    else
      .ok (foundSummaryMsg fallbackStatements.length)
        (fallbackStatements.map toSource) "medium" none
  | .rows statements =>
    if statements.isEmpty then .ok noResultsMsg [] "low" none
    else .ok (foundSummaryMsg statements.length) (statements.map toSource) "medium" none

/-- The answer stage of revision 1 (lines 141-302), after the candidate
entries are known: every answer-oracle failure mode yields a degraded
success response that keeps the candidates as sources; the in-band error
detail for a non-success status is modelled by the raw body text. -/
def askVeritas1Answer (relevantStatements : List ChainEntry)
    (answerOracle : OracleOutcome) : AskResponse :=
  if relevantStatements.isEmpty then .ok noResultsMsg [] "low" none
  else
    let n := relevantStatements.length
    let srcs := relevantStatements.map toSource
    match answerOracle with
    | .netError m =>
      .ok ("I found relevant information but couldn\x27t connect to the AI service. Here\x27s what I found: " ++
            toString n ++ " relevant statements about your query.")
        srcs "low" (some ("API connection error: " ++ m))
    | .httpError st body =>
      .ok ("I found relevant information but encountered an error with the AI service. Here\x27s what I found: " ++
            toString n ++ " relevant statements about your query.")
        srcs "low" (some ("API error (" ++ toString st ++ "): " ++ body))
    | .badJson _ =>
      .ok ("I found relevant information but received an invalid response from the AI service. Here\x27s what I found: " ++
            toString n ++ " relevant statements about your query.")
        srcs "low" (some "Invalid API response format")
    | .badShape _ =>
      .ok ("I found relevant information but received an unexpected response from the AI service. Here\x27s what I found: " ++
            toString n ++ " relevant statements about your query.")
        srcs "low" (some "Unexpected API response structure")
    | .content text => .ok text srcs "high" none

/-- select * where id in relevantIds limit 5 (revision 1 lines 135-139);
string ids select the rows carrying them. -/
def selectByIds (table : List ChainEntry) (ids : List Json) : List ChainEntry :=
  (table.filter (fun e =>
    ids.any (fun j =>
      match j with
      | Json.str s => s == e.id
      | _ => false))).take 5

/-- The revision-1 handler (lines 9-315). The search-stage oracle reply
is parsed defensively: a network error, non-success status, missing
envelope fields, unparsable content or a non-array value all route to
fallbackToDirectSearch; an envelope whose body is not JSON throws at
aiResponse.json() outside any try and surfaces as a 500. -/
def askVeritas1 (query : String) (table : List ChainEntry)
    (apiKey : Option String) (fetchAll : QueryOutcome)
    (searchOracle : OracleOutcome) (fullText : QueryOutcome)
    (answerOracle : OracleOutcome) : AskResponse :=
  if query = "" then .err 400 "Query is required"
  else
    match apiKey with
    | none => .err 500 "Mistral API key not configured"
    | some _ =>
      match fetchAll with
      | .failure _ => .err 500 "Failed to fetch statements from database"
      | .rows allStatements =>
        if allStatements.isEmpty then
          .ok "There are no statements in the Veritas database yet." [] "low" none
        else
          match searchOracle with
          | .netError _ => fallbackToDirectSearch table query fullText
          | .httpError _ _ => fallbackToDirectSearch table query fullText
          | .badJson _ => .err 500 "Internal server error"
          | .badShape _ => fallbackToDirectSearch table query fullText
          | .content text =>
            match jsonParse text with
            | some (Json.arr ids) => askVeritas1Answer (selectByIds table ids) answerOracle
            | _ => fallbackToDirectSearch table query fullText

/-- The tail of the revision-2 handler from the point where
relevantStatements is fixed (lines 450-542): empty candidates yield the
no-results response; a missing API key yields the medium database
summary; then the single oracle call either succeeds with high
confidence or throws (network error, non-success status via the explicit
throw, or a malformed body) and is caught as a 500. -/
def askVeritas2Rest (relevantStatements : List ChainEntry)
    (apiKey : Option String) (oracle : OracleOutcome) : AskResponse :=
  if relevantStatements.isEmpty then .ok noResultsMsg [] "low" none
  else
    match apiKey with
    | none =>
      .ok ("Based on the Veritas database, I found " ++
            toString relevantStatements.length ++
            " relevant statement(s). Here are the details: " ++
            contextOf relevantStatements)
        (relevantStatements.map toSource) "medium" none
    | some _ =>
      match oracle with
      | .content text => .ok text (relevantStatements.map toSource) "high" none
      | _ => .err 500 "Internal server error"

/-- The revision-2 handler (lines 398-551). On a full-text search error
the keyword fallback is queried and its emptiness decides an early
no-results return; otherwise control falls through to
relevantStatements := statements or [], where statements is null because
the search errored, so the fallback rows are dropped. -/
def askVeritas2 (query : String) (table : List ChainEntry)
    (fullText : QueryOutcome) (apiKey : Option String)
    (oracle : OracleOutcome) : AskResponse :=
  if query = "" then .err 400 "Query is required"
  else
    match fullText with
    | .failure _ =>
      let fallbackStatements := keywordSearch table query
      if fallbackStatements.isEmpty then .ok noResultsMsg [] "low" none
      else askVeritas2Rest [] apiKey oracle
    | .rows statements => askVeritas2Rest statements apiKey oracle

/-- A concrete ledger row used by the concrete-input theorems below. -/
def sampleRow : ChainEntry :=
  { id := "row-1"
    statement := "The sky is blue today"
    speaker := "Alice"
    source_url := none
    statement_date := none
    statement_hash := "s1"
    previous_hash := "0"
    block_hash := "bh1"
    created_at := 1700000000000
    verification_status := none
    verification_confidence := none }

/-!
Helper lemmas about the chain linker used by the claims below.
goodLedger is the reachability invariant of sequential appends: the list
is structurally chained, every block fingerprint recomputes from its
stored inputs and no fingerprint is the empty string.
-/

def validReq (r : AppendReq) : Prop := r.statement ≠ "" ∧ r.speaker ≠ ""

def goodLedger (L : List ChainEntry) : Prop :=
  chainLinksOk L = true ∧ ∀ e ∈ L, recomputeOk e = true ∧ e.block_hash ≠ ""

lemma goodLedger_nil : goodLedger [] := ⟨rfl, by simp⟩

lemma natToHexAux_ne_nil (fuel n : Nat) (h : fuel ≠ 0) : natToHexAux fuel n ≠ [] := by
  cases fuel with
  | zero => exact absurd rfl h
  | succ f =>
    unfold natToHexAux
    by_cases h16 : n < 16 <;> simp [h16]

lemma simpleHash_ne_empty (s : String) : simpleHash s ≠ "" := by
  unfold simpleHash natToHex
  intro h
  have hdata : natToHexAux ((rollingHash s).natAbs + 1) (rollingHash s).natAbs = [] := by
    simpa using congrArg String.data h
  exact natToHexAux_ne_nil _ _ (Nat.succ_ne_zero _) hdata

lemma addStatement_pos (L : List ChainEntry) (r : AppendReq)
    (hs : r.statement ≠ "") (hp : r.speaker ≠ "") :
    addStatement L r =
      (.added (mkChainEntry r (appendPreviousHash L)),
       mkChainEntry r (appendPreviousHash L) :: L) := by
  unfold addStatement
  rw [if_neg (not_or.mpr ⟨hs, hp⟩)]

lemma mkChainEntry_previous (r : AppendReq) (p : String) :
    (mkChainEntry r p).previous_hash = p := rfl

lemma mkChainEntry_recompute (r : AppendReq) (p : String) :
    recomputeOk (mkChainEntry r p) = true := by
  simp [recomputeOk, mkChainEntry]

lemma mkChainEntry_bh_ne (r : AppendReq) (p : String) :
    (mkChainEntry r p).block_hash ≠ "" := by
  simpa [mkChainEntry] using simpleHash_ne_empty _

lemma appendPreviousHash_prevOf (L : List ChainEntry)
    (h : ∀ e ∈ L, e.block_hash ≠ "") : appendPreviousHash L = prevOf L := by
  cases L with
  | nil => rfl
  | cons e t =>
    simp [appendPreviousHash, latestBlockHash, prevOf, jsOr, h e (List.mem_cons_self e t)]

lemma goodLedger_step (L : List ChainEntry) (r : AppendReq)
    (hr : validReq r) (hL : goodLedger L) :
    goodLedger (addStatement L r).2 ∧ (addStatement L r).2.length = L.length + 1 := by
  obtain ⟨hs, hp⟩ := hr
  obtain ⟨hchain, hmem⟩ := hL
  have hne : ∀ e ∈ L, e.block_hash ≠ "" := fun e he => (hmem e he).2
  rw [addStatement_pos L r hs hp]
  refine ⟨⟨?_, ?_⟩, by simp⟩
  · show chainLinksOk (mkChainEntry r (appendPreviousHash L) :: L) = true
    have hunfold : chainLinksOk (mkChainEntry r (appendPreviousHash L) :: L) =
        (((mkChainEntry r (appendPreviousHash L)).previous_hash == prevOf L) &&
          chainLinksOk L) := rfl
    rw [hunfold, mkChainEntry_previous, appendPreviousHash_prevOf L hne, hchain]
    simp
  · intro e he
    rcases List.mem_cons.mp he with h | h
    · subst h
      exact ⟨mkChainEntry_recompute r _, mkChainEntry_bh_ne r _⟩
    · exact hmem e h

lemma runAppendsFrom_good (reqs : List AppendReq) :
    ∀ (L : List ChainEntry), goodLedger L → (∀ r ∈ reqs, validReq r) →
    goodLedger (runAppendsFrom L reqs) ∧
      (runAppendsFrom L reqs).length = L.length + reqs.length := by
  induction reqs with
  | nil =>
    intro L hL _
    exact ⟨hL, by simp [runAppendsFrom]⟩
  | cons r rs ih =>
    intro L hL hv
    have hstep := goodLedger_step L r (hv r (List.mem_cons_self r rs)) hL
    have heq : runAppendsFrom L (r :: rs) = runAppendsFrom (addStatement L r).2 rs := rfl
    rw [heq]
    have hrest := ih (addStatement L r).2 hstep.1
      (fun x hx => hv x (List.mem_cons_of_mem r hx))
    refine ⟨hrest.1, ?_⟩
    rw [hrest.2, hstep.2]
    simp only [List.length_cons]
    omega

lemma findByBlockHash_self (L : List ChainEntry)
    (hnd : (L.map (fun e => e.block_hash)).Nodup) :
    ∀ f ∈ L, findByBlockHash L f.block_hash = some f := by
  induction L with
  | nil => intro f hf; simp at hf
  | cons a t ih =>
    intro f hf
    have hnd' : a.block_hash ∉ t.map (fun e => e.block_hash) ∧
        (t.map (fun e => e.block_hash)).Nodup := by
      simpa [List.nodup_cons] using hnd
    rcases List.mem_cons.mp hf with h | h
    · subst h
      simp [findByBlockHash, List.find?]
    · have hne : (a.block_hash == f.block_hash) = false := by
        apply beq_eq_false_iff_ne.mpr
        intro he
        exact hnd'.1 (he ▸ List.mem_map_of_mem (fun e => e.block_hash) h)
      have := ih hnd'.2 f h
      simpa [findByBlockHash, List.find?, hne] using this

lemma followHops_reaches (rest : List ChainEntry) :
    ∀ (T : List ChainEntry) (fuel : Nat),
    chainLinksOk rest = true →
    (∀ f ∈ rest, findByBlockHash T f.block_hash = some f) →
    (∀ f ∈ rest, f.block_hash ≠ "0") →
    rest.length ≤ fuel →
    followHops T fuel (prevOf rest) = some rest.length := by
  induction rest with
  | nil =>
    intro T fuel _ _ _ _
    rw [show prevOf ([] : List ChainEntry) = "0" from rfl]
    cases fuel <;> simp [followHops]
  | cons f rest' ih =>
    intro T fuel hchain hfind hz hfuel
    have hbh : f.block_hash ≠ "0" := hz f (List.mem_cons_self f rest')
    have hchain' : (f.previous_hash == prevOf rest') = true ∧ chainLinksOk rest' = true := by
      simpa [chainLinksOk, Bool.and_eq_true] using hchain
    have hprev : f.previous_hash = prevOf rest' := eq_of_beq hchain'.1
    cases fuel with
    | zero => simp at hfuel
    | succ k =>
      have hstep : followHops T (k + 1) (prevOf (f :: rest')) =
          (followHops T k f.previous_hash).map (· + 1) := by
        show followHops T (k + 1) f.block_hash = _
        rw [followHops]
        rw [if_neg hbh, hfind f (List.mem_cons_self f rest')]
      rw [hstep, hprev,
        ih T k hchain'.2 (fun x hx => hfind x (List.mem_cons_of_mem f hx))
          (fun x hx => hz x (List.mem_cons_of_mem f hx)) (by simpa using Nat.le_of_succ_le_succ hfuel)]
      simp
/-!
Claim theorems.
-/

/-- C1 counterexample. The claim asserts that after N sequential valid
appends, following previous_hash pointers from the tail reaches the
genesis sentinel "0" after exactly N hops. The weak 32-bit hash makes a
block fingerprint of exactly "0" reachable: appending
statement "a", speaker "b" at Date.now() = 1764984854202 produces
block_hash simpleHash ("c21" ++ "0" ++ "1764984854202") = "0", so the
next entry points at "0" and a replay from the tail of the resulting
2-entry ledger stops after 1 hop, not 2. -/
theorem chain_replay_zero_collision :
    (∀ r ∈ [({ statement := "a", speaker := "b", sourceUrl := none,
               statementDate := none, now := 1764984854202 } : AppendReq),
            { statement := "c", speaker := "d", sourceUrl := none,
              statementDate := none, now := 1764984854203 }],
       r.statement ≠ "" ∧ r.speaker ≠ "") ∧
    (runAppends [({ statement := "a", speaker := "b", sourceUrl := none,
                    statementDate := none, now := 1764984854202 } : AppendReq),
                 { statement := "c", speaker := "d", sourceUrl := none,
                   statementDate := none, now := 1764984854203 }]).length = 2 ∧
    replayHopsFromTail
      (runAppends [({ statement := "a", speaker := "b", sourceUrl := none,
                      statementDate := none, now := 1764984854202 } : AppendReq),
                   { statement := "c", speaker := "d", sourceUrl := none,
                     statementDate := none, now := 1764984854203 }]) = some 1 ∧
    (some 1 : Option Nat) ≠ some 2 := by
  refine ⟨by decide, rfl, by decide, by decide⟩

/-- C1 amended. For any sequence of sequential valid appends from the
empty ledger: the resulting table is structurally chained, has one entry
per append, every entry's block fingerprint recomputes from its stored
inputs, and -- provided no block fingerprint equals the sentinel "0" and
the fingerprints are pairwise distinct (which the weak hash cannot
guarantee, see the counterexample) -- a replay following previous_hash
pointers from the tail reaches the sentinel after exactly N hops. -/
theorem chain_integrity_sequential_appends (reqs : List AppendReq)
    (hv : ∀ r ∈ reqs, r.statement ≠ "" ∧ r.speaker ≠ "") :
    chainLinksOk (runAppends reqs) = true ∧
    (runAppends reqs).length = reqs.length ∧
    (∀ e ∈ runAppends reqs, recomputeOk e = true) ∧
    ((∀ e ∈ runAppends reqs, e.block_hash ≠ "0") →
      ((runAppends reqs).map (fun e => e.block_hash)).Nodup →
      replayHopsFromTail (runAppends reqs) = some reqs.length) := by
  have hgood := runAppendsFrom_good reqs [] goodLedger_nil (fun r hr => hv r hr)
  have hlen : (runAppends reqs).length = reqs.length := by
    have := hgood.2
    simpa [runAppends] using this
  refine ⟨hgood.1.1, hlen, fun e he => (hgood.1.2 e he).1, ?_⟩
  intro hz hnd
  rw [← hlen]
  rcases hL : runAppends reqs with _ | ⟨e, rest⟩
  · simp [replayHopsFromTail]
  · rw [hL] at hz hnd
    have hchain : chainLinksOk (e :: rest) = true := by
      rw [← hL]; exact hgood.1.1
    have hsplit : (e.previous_hash == prevOf rest) = true ∧ chainLinksOk rest = true := by
      simpa [chainLinksOk, Bool.and_eq_true] using hchain
    have hreach := followHops_reaches rest (e :: rest) (rest.length + 1) hsplit.2
      (fun x hx => findByBlockHash_self (e :: rest) hnd x (List.mem_cons_of_mem e hx))
      (fun x hx => hz x (List.mem_cons_of_mem e hx))
      (Nat.le_succ _)
    show (followHops (e :: rest) (e :: rest).length e.previous_hash).map (· + 1) =
      some (e :: rest).length
    rw [show ((e :: rest).length = rest.length + 1) from rfl,
      eq_of_beq hsplit.1, hreach]
    rfl

/-- C1 witness for the amended theorem: two concrete valid appends whose
fingerprints are distinct and avoid the sentinel replay in exactly 2 hops. -/
theorem chain_integrity_sequential_appends_witness :
    replayHopsFromTail
      (runAppends [({ statement := "Sky is blue", speaker := "Alice", sourceUrl := none,
                      statementDate := none, now := 1700000000000 } : AppendReq),
                   { statement := "Grass is green", speaker := "Bob", sourceUrl := none,
                     statementDate := none, now := 1700000000001 }]) = some 2 :=
  (chain_integrity_sequential_appends
    [({ statement := "Sky is blue", speaker := "Alice", sourceUrl := none,
        statementDate := none, now := 1700000000000 } : AppendReq),
     { statement := "Grass is green", speaker := "Bob", sourceUrl := none,
       statementDate := none, now := 1700000000001 }]
    (by decide)).2.2.2 (by decide) (by decide)

/-- C2. Every append call that passes validation (against a table whose
tail, if any, has a non-empty block fingerprint, as every reachable
table does) inserts an entry whose previousHash is the tail block
fingerprint or "0" for the empty ledger, whose statementFingerprint is
the digest of statement ++ speaker ++ (sourceUrl or empty), and whose
blockFingerprint is the digest of
statementFingerprint ++ previousHash ++ timestamp. -/
theorem addStatement_entry_fields (ledger : List ChainEntry) (r : AppendReq)
    (hs : r.statement ≠ "") (hp : r.speaker ≠ "")
    (ht : ∀ t ∈ ledger.head?, t.block_hash ≠ "") :
    ∃ e, (addStatement ledger r).1 = .added e ∧
      (addStatement ledger r).2 = e :: ledger ∧
      e.previous_hash = (match ledger with
        | [] => "0"
        | t :: _ => t.block_hash) ∧
      e.statement_hash = simpleHash (r.statement ++ r.speaker ++ r.sourceUrl.getD "") ∧
      e.block_hash = simpleHash (e.statement_hash ++ e.previous_hash ++ toString r.now) ∧
      e.created_at = r.now := by
  rw [addStatement_pos ledger r hs hp]
  refine ⟨mkChainEntry r (appendPreviousHash ledger), rfl, rfl, ?_, rfl, rfl, rfl⟩
  rw [mkChainEntry_previous]
  cases ledger with
  | nil => rfl
  | cons t rest =>
    have hbh : t.block_hash ≠ "" := ht t (by simp)
    simp [appendPreviousHash, latestBlockHash, jsOr, hbh]

/-- C2 witness: appending to the empty ledger. -/
theorem addStatement_entry_fields_witness :
    ∃ e, (addStatement []
        ({ statement := "Sky is blue", speaker := "Alice", sourceUrl := none,
           statementDate := none, now := 1700000000000 } : AppendReq)).1 = .added e ∧
      (addStatement []
        ({ statement := "Sky is blue", speaker := "Alice", sourceUrl := none,
           statementDate := none, now := 1700000000000 } : AppendReq)).2 = e :: [] ∧
      e.previous_hash = "0" ∧
      e.statement_hash = simpleHash ("Sky is blue" ++ "Alice" ++ "") ∧
      e.block_hash = simpleHash (e.statement_hash ++ e.previous_hash ++ toString 1700000000000) ∧
      e.created_at = 1700000000000 :=
  addStatement_entry_fields []
    ({ statement := "Sky is blue", speaker := "Alice", sourceUrl := none,
       statementDate := none, now := 1700000000000 } : AppendReq)
    (by decide) (by decide) (by simp)

/-- C3. An add-statement call fails with the 400 validation response if
and only if statement or speaker is empty; in that case no row is
inserted; the two concrete examples of the claim behave as stated. -/
theorem addStatement_validation :
    (∀ (ledger : List ChainEntry) (r : AppendReq),
      ((addStatement ledger r).1.isError = true ↔ r.statement = "" ∨ r.speaker = "") ∧
      (r.statement = "" ∨ r.speaker = "" →
        (addStatement ledger r).1 =
          .validationError 400 "Statement and speaker are required" ∧
        (addStatement ledger r).2 = ledger)) ∧
    (addStatement []
      ({ statement := "", speaker := "Alice", sourceUrl := none,
         statementDate := none, now := 0 } : AppendReq)).1.isError = true ∧
    (∃ e, (addStatement []
      ({ statement := "Sky is blue", speaker := "Alice",
         sourceUrl := none, statementDate := none, now := 0 } : AppendReq)).1 = .added e ∧
      e.previous_hash = "0") := by
  refine ⟨?_, by decide,
    ⟨mkChainEntry
      ({ statement := "Sky is blue", speaker := "Alice",
         sourceUrl := none, statementDate := none, now := 0 } : AppendReq) "0",
     by decide, by decide⟩⟩
  intro ledger r
  by_cases h : r.statement = "" ∨ r.speaker = ""
  · constructor
    · rw [addStatement, if_pos h]
      simp [AddResult.isError, h]
    · intro _
      rw [addStatement, if_pos h]
      exact ⟨rfl, rfl⟩
  · push_neg at h
    constructor
    · rw [addStatement_pos ledger r h.1 h.2]
      simp [AddResult.isError, h.1, h.2]
    · intro hcon
      exact absurd hcon (not_or.mpr h)

/-- C3 witness: the empty-statement example rejected. -/
theorem addStatement_validation_witness :
    (addStatement []
      ({ statement := "", speaker := "Alice", sourceUrl := none,
         statementDate := none, now := 0 } : AppendReq)).1.isError = true ∧
    (addStatement []
      ({ statement := "", speaker := "Alice", sourceUrl := none,
         statementDate := none, now := 0 } : AppendReq)).2 = [] :=
  ⟨addStatement_validation.2.1,
   ((addStatement_validation.1 [] _).2 (Or.inl rfl)).2⟩

/-- C4 counterexample. The claim asserts that no feasible single-character
change collides. The strings bmgkAEl and bmgkAEz agree on their first six
characters and differ only in the final one, yet both fingerprint to "7":
their rolling hashes are -7 and 7 and Math.abs folds them together. -/
theorem simpleHash_single_change_collision :
    simpleHash "bmgkAEl" = simpleHash "bmgkAEz" ∧
    ("bmgkAEl" : String) ≠ "bmgkAEz" ∧
    "bmgkAEl".length = "bmgkAEz".length ∧
    "bmgkAEl".data.take 6 = "bmgkAEz".data.take 6 ∧
    simpleHash "bmgkAEl" = "7" := by
  refine ⟨by decide, by decide, by decide, by decide, by decide⟩

/-- C4 amended. The fingerprint is deterministic (it is a pure function
of its input, with no hidden or machine-dependent state), but a
single-character change does NOT always change the output: an explicit
same-length pair differing only in the last character collides. -/
theorem simpleHash_deterministic_not_collision_free :
    (∀ x y : String, x = y → simpleHash x = simpleHash y) ∧
    (∃ s1 s2 : String, s1 ≠ s2 ∧ s1.length = s2.length ∧
      s1.data.take 6 = s2.data.take 6 ∧ simpleHash s1 = simpleHash s2) := by
  refine ⟨fun x y h => by rw [h], "bmgkAEl", "bmgkAEz", by decide, by decide, by decide, by decide⟩

/-- C4 witness for the determinism hypothesis. -/
theorem simpleHash_deterministic_not_collision_free_witness :
    simpleHash "ab" = simpleHash "ab" :=
  simpleHash_deterministic_not_collision_free.1 "ab" "ab" rfl

/-- C5. Whenever the oracle content is not valid JSON, neither
verify-statement revision fails: part_001 synthesizes the degraded
verification record with status UNVERIFIED, confidence LOW,
issues = [AI response parsing failed], keyFacts = [] and the raw content
as reasoning, and index.ts builds the same fallback object. -/
theorem verify_parse_failure_degrades (content : String)
    (h : jsonParse content = none) :
    parseVerification1 content =
      { status := Json.str "UNVERIFIED"
        confidence := Json.str "LOW"
        keyFacts := Json.arr []
        issues := Json.arr [Json.str "AI response parsing failed"]
        context := Json.str ""
        recommendation := Json.str "Manual review required"
        reasoning := Json.str content } ∧
    verifyParse0 content =
      Json.obj
        [("status", Json.str "UNVERIFIED"),
         ("confidence", Json.str "LOW"),
         ("reasoning", Json.str content),
         ("keyFacts", Json.arr []),
         ("issues", Json.arr [Json.str "AI response parsing failed"]),
         ("context", Json.str ""),
         ("recommendation", Json.str "Manual review required")] := by
  constructor
  · simp only [parseVerification1, h, fallbackVerification]
  · simp only [verifyParse0, h]

/-- C5 witness: the literal content not json. -/
theorem verify_parse_failure_degrades_witness :
    parseVerification1 "not json" =
      { status := Json.str "UNVERIFIED"
        confidence := Json.str "LOW"
        keyFacts := Json.arr []
        issues := Json.arr [Json.str "AI response parsing failed"]
        context := Json.str ""
        recommendation := Json.str "Manual review required"
        reasoning := Json.str "not json" } ∧
    verifyParse0 "not json" =
      Json.obj
        [("status", Json.str "UNVERIFIED"),
         ("confidence", Json.str "LOW"),
         ("reasoning", Json.str "not json"),
         ("keyFacts", Json.arr []),
         ("issues", Json.arr [Json.str "AI response parsing failed"]),
         ("context", Json.str ""),
         ("recommendation", Json.str "Manual review required")] :=
  verify_parse_failure_degrades "not json" rfl

/-- C6 counterexample. The claim asserts a missing context field defaults
to the empty string; the code defaults every non-list, non-status,
non-confidence field to the Not provided placeholder, so for the content
with only status and confidence present, context is Not provided, not "". -/
theorem verify_context_default_not_provided :
    (parseVerification1 "\x7b\"status\":\"VERIFIED\",\"confidence\":\"HIGH\"\x7d").context =
      Json.str "Not provided" ∧
    (parseVerification1 "\x7b\"status\":\"VERIFIED\",\"confidence\":\"HIGH\"\x7d").context ≠
      Json.str "" ∧
    (parseVerification1 "\x7b\"status\":\"VERIFIED\",\"confidence\":\"HIGH\"\x7d").status =
      Json.str "VERIFIED" ∧
    (parseVerification1 "\x7b\"status\":\"VERIFIED\",\"confidence\":\"HIGH\"\x7d").confidence =
      Json.str "HIGH" ∧
    (parseVerification1 "\x7b\"status\":\"VERIFIED\",\"confidence\":\"HIGH\"\x7d").keyFacts =
      Json.arr [] ∧
    (parseVerification1 "\x7b\"status\":\"VERIFIED\",\"confidence\":\"HIGH\"\x7d").issues =
      Json.arr [] ∧
    (parseVerification1 "\x7b\"status\":\"VERIFIED\",\"confidence\":\"HIGH\"\x7d").recommendation =
      Json.str "Not provided" ∧
    (parseVerification1 "\x7b\"status\":\"VERIFIED\",\"confidence\":\"HIGH\"\x7d").reasoning =
      Json.str "Not provided" := by
  refine ⟨rfl, ?_, rfl, rfl, rfl, rfl, rfl, rfl⟩
  intro hcon
  have h2 : Json.str "Not provided" = Json.str "" := hcon
  injection h2 with h3
  exact absurd h3 (by decide)

/-- C6 amended. For oracle content that parses to an object holding only
truthy status and confidence values, the missing fields are filled with
the code defaults -- keyFacts = [], issues = [], context, recommendation
and reasoning = Not provided -- while status and confidence pass through
unchanged. -/
theorem verify_missing_field_defaults (content : String) (s c : Json)
    (h : jsonParse content = some (Json.obj [("status", s), ("confidence", c)]))
    (hs : jsTruthy s = true) (hc : jsTruthy c = true) :
    parseVerification1 content =
      { status := s
        confidence := c
        keyFacts := Json.arr []
        issues := Json.arr []
        context := Json.str "Not provided"
        recommendation := Json.str "Not provided"
        reasoning := Json.str "Not provided" } := by
  simp only [parseVerification1, h]
  simp [fieldDefault, lookupField, List.find?, hs, hc]

/-- C6 witness: the concrete status/confidence content. -/
theorem verify_missing_field_defaults_witness :
    parseVerification1 "\x7b\"status\":\"VERIFIED\",\"confidence\":\"HIGH\"\x7d" =
      { status := Json.str "VERIFIED"
        confidence := Json.str "HIGH"
        keyFacts := Json.arr []
        issues := Json.arr []
        context := Json.str "Not provided"
        recommendation := Json.str "Not provided"
        reasoning := Json.str "Not provided" } :=
  verify_missing_field_defaults "\x7b\"status\":\"VERIFIED\",\"confidence\":\"HIGH\"\x7d"
    (Json.str "VERIFIED") (Json.str "HIGH") rfl rfl rfl

/-- C7 counterexample. The claim asserts the verification result is
persisted onto the MATCHING ledger entry verification fields. With a
matching row present (sampleRow: same statement and speaker), the
persistence step leaves that row untouched (its verification_status is
still none and it is the only row with its block fingerprint) and
instead inserts a brand-new row, growing the table to 2 entries. The
digest argument is irrelevant to this behaviour; a constant stands in. -/
theorem verify_persist_no_update :
    ((verifyFinish (fun _ => "d") [sampleRow] "The sky is blue today" (some "Alice")
        none none (fallbackVerification "x") 7 .ok).1.filter
      (fun e => e.block_hash == sampleRow.block_hash)) = [sampleRow] ∧
    sampleRow.verification_status = none ∧
    (verifyFinish (fun _ => "d") [sampleRow] "The sky is blue today" (some "Alice")
        none none (fallbackVerification "x") 7 .ok).1.length = 2 := by
  refine ⟨rfl, rfl, rfl⟩

/-- C7 amended. The handler persists the verification best-effort by
INSERTING a new chain row that carries the verification fields (it does
not update the matching entry); a store failure leaves the table
unchanged and is swallowed; in every case the 200 response with the
verification result is returned, independent of the store outcome. -/
theorem verify_persist_best_effort (sha : String → String) (ledger : List ChainEntry)
    (statement : String) (speaker sourceUrl statementDate : Option String)
    (ver : Verification) (now : Nat) :
    (∀ db, (verifyFinish sha ledger statement speaker sourceUrl statementDate ver now db).2 =
      { status := 200, statement := statement, speaker := jsOrOpt speaker "Unknown",
        verification := ver }) ∧
    (statement ≠ "" → jsOrOpt speaker "" ≠ "" →
      ∃ e, (verifyFinish sha ledger statement speaker sourceUrl statementDate ver now .ok).1 =
          e :: ledger ∧
        e.verification_status = some (jsonText ver.status) ∧
        e.verification_confidence = some (jsonText ver.confidence)) ∧
    (∀ m, (verifyFinish sha ledger statement speaker sourceUrl statementDate ver now
        (.failure m)).1 = ledger) := by
  refine ⟨fun db => rfl, ?_, fun m => ?_⟩
  · intro h1 h2
    show ∃ e, (if statement ≠ "" ∧ jsOrOpt speaker "" ≠ "" then
        insertVerified sha ledger statement (speaker.getD "") sourceUrl statementDate ver now
      else ledger) = e :: ledger ∧ _ ∧ _
    rw [if_pos ⟨h1, h2⟩]
    exact ⟨_, rfl, rfl, rfl⟩
  · show (if statement ≠ "" ∧ jsOrOpt speaker "" ≠ "" then ledger else ledger) = ledger
    split <;> rfl

/-- C7 witness: a failing store still yields the 200 verification
response, and a successful store inserts a row with the fields set. -/
theorem verify_persist_best_effort_witness :
    (verifyFinish (fun _ => "d") [] "s" (some "p") none none
        (fallbackVerification "x") 1 (.failure "boom")).2 =
      { status := 200, statement := "s", speaker := "p",
        verification := fallbackVerification "x" } ∧
    ∃ e, (verifyFinish (fun _ => "d") [] "s" (some "p") none none
        (fallbackVerification "x") 1 .ok).1 = e :: [] ∧
      e.verification_status = some "UNVERIFIED" ∧
      e.verification_confidence = some "LOW" :=
  ⟨(verify_persist_best_effort (fun _ => "d") [] "s" (some "p") none none
      (fallbackVerification "x") 1).1 (.failure "boom"),
   (verify_persist_best_effort (fun _ => "d") [] "s" (some "p") none none
      (fallbackVerification "x") 1).2.1 (by decide) (by decide)⟩

/-- C8 counterexample. The claim asserts that once retrieval has produced
candidates, an oracle failure never raises to the caller. In revision 2,
with one retrieved candidate and a non-success oracle status, the handler
throws (Failed to get AI response) and the outer catch returns a 500
error response instead of a degraded success. -/
theorem ask_rev2_oracle_failure_500 :
    askVeritas2 "sky" [sampleRow] (.rows [sampleRow]) (some "key")
        (.httpError 500 "upstream error") = .err 500 "Internal server error" ∧
    ([sampleRow] : List ChainEntry) ≠ [] := by
  exact ⟨rfl, by decide⟩

/-- C8 amended. In revision 1, once candidates are known, every oracle
outcome (including all failure modes) produces a successful response; in
revision 2, any oracle failure after retrieval propagates to the outer
handler as a 500 error. -/
theorem ask_oracle_failure_policy :
    (∀ (rs : List ChainEntry) (o : OracleOutcome),
      (askVeritas1Answer rs o).isOk = true) ∧
    (∀ (q : String) (t rs : List ChainEntry) (k : String) (o : OracleOutcome),
      q ≠ "" → rs ≠ [] → o.isContent = false →
      askVeritas2 q t (.rows rs) (some k) o = .err 500 "Internal server error") := by
  constructor
  · intro rs o
    cases h : rs.isEmpty
    · simp only [askVeritas1Answer, h]
      cases o <;> rfl
    · simp only [askVeritas1Answer, h]
      rfl
  · intro q t rs k o hq hrs ho
    have hne : rs.isEmpty = false := by
      cases rs with
      | nil => exact absurd rfl hrs
      | cons a l => rfl
    simp only [askVeritas2, if_neg hq, askVeritas2Rest, hne]
    cases o <;> simp_all [OracleOutcome.isContent]

/-- C8 witness: a concrete network failure in each revision. -/
theorem ask_oracle_failure_policy_witness :
    (askVeritas1Answer [sampleRow] (.netError "refused")).isOk = true ∧
    askVeritas2 "sky" [] (.rows [sampleRow]) (some "key") (.netError "refused") =
      .err 500 "Internal server error" :=
  ⟨ask_oracle_failure_policy.1 [sampleRow] (.netError "refused"),
   ask_oracle_failure_policy.2 "sky" [] [sampleRow] "key" (.netError "refused")
     (by decide) (by decide) rfl⟩

/-- C9 counterexample. The claim asserts confidence is low only when
retrieval finds nothing, and that an unavailable oracle yields medium.
In revision 1, with one retrieved candidate and the answer-stage oracle
unreachable, the response carries confidence low (with the candidate
still included as a source), refuting both parts at this input. -/
theorem ask_low_confidence_with_candidates :
    (askVeritas1Answer [sampleRow] (.netError "connection refused")).confidenceOf =
      some "low" ∧
    ([sampleRow] : List ChainEntry) ≠ [] ∧
    (askVeritas1Answer [sampleRow] (.netError "connection refused")).sourcesOf =
      some [toSource sampleRow] := by
  exact ⟨rfl, by decide, rfl⟩

/-- C9 amended. Given retrieved candidates: a successful oracle round
trip yields confidence high in both revisions; a missing API key yields
the medium database summary in revision 2; an answer-stage oracle
failure in revision 1 yields confidence low while the candidates are
still returned as sources; and empty retrieval yields the low no-results
response. -/
theorem ask_confidence_policy :
    (∀ (rs : List ChainEntry) (text : String), rs ≠ [] →
      askVeritas1Answer rs (.content text) = .ok text (rs.map toSource) "high" none) ∧
    (∀ (q : String) (t rs : List ChainEntry) (k text : String), q ≠ "" → rs ≠ [] →
      askVeritas2 q t (.rows rs) (some k) (.content text) =
        .ok text (rs.map toSource) "high" none) ∧
    (∀ (q : String) (t rs : List ChainEntry) (o : OracleOutcome), q ≠ "" → rs ≠ [] →
      askVeritas2 q t (.rows rs) none o =
        .ok ("Based on the Veritas database, I found " ++ toString rs.length ++
              " relevant statement(s). Here are the details: " ++ contextOf rs)
          (rs.map toSource) "medium" none) ∧
    (∀ (rs : List ChainEntry) (o : OracleOutcome), rs ≠ [] → o.isContent = false →
      (askVeritas1Answer rs o).confidenceOf = some "low" ∧
      (askVeritas1Answer rs o).sourcesOf = some (rs.map toSource)) ∧
    (∀ (o : OracleOutcome), askVeritas1Answer [] o = .ok noResultsMsg [] "low" none) := by
  have hempty : ∀ (rs : List ChainEntry), rs ≠ [] → rs.isEmpty = false := by
    intro rs h
    cases rs with
    | nil => exact absurd rfl h
    | cons a l => rfl
  refine ⟨?_, ?_, ?_, ?_, ?_⟩
  · intro rs text hrs
    simp only [askVeritas1Answer, hempty rs hrs]
    rfl
  · intro q t rs k text hq hrs
    simp only [askVeritas2, if_neg hq, askVeritas2Rest, hempty rs hrs]
    rfl
  · intro q t rs o hq hrs
    simp only [askVeritas2, if_neg hq, askVeritas2Rest, hempty rs hrs]
    rfl
  · intro rs o hrs ho
    simp only [askVeritas1Answer, hempty rs hrs]
    cases o <;> simp_all [OracleOutcome.isContent, AskResponse.confidenceOf,
      AskResponse.sourcesOf]
  · intro o
    rfl

/-- C9 witness: one concrete instance of each confidence level. -/
theorem ask_confidence_policy_witness :
    askVeritas1Answer [sampleRow] (.content "It is blue.") =
      .ok "It is blue." [toSource sampleRow] "high" none ∧
    askVeritas2 "sky" [] (.rows [sampleRow]) none (.content "ignored") =
      .ok ("Based on the Veritas database, I found " ++ toString 1 ++
            " relevant statement(s). Here are the details: " ++ contextOf [sampleRow])
        [toSource sampleRow] "medium" none ∧
    (askVeritas1Answer [sampleRow] (.httpError 429 "rate limited")).confidenceOf =
      some "low" :=
  ⟨ask_confidence_policy.1 [sampleRow] "It is blue." (by decide),
   ask_confidence_policy.2.2.1 "sky" [] [sampleRow] (.content "ignored") (by decide) (by decide),
   (ask_confidence_policy.2.2.2.1 [sampleRow] (.httpError 429 "rate limited")
      (by decide) rfl).1⟩

/-- C10. When the full-text search errors, the keyword fallback runs with
the documented tokenization and matching and, per the claim, its rows
should become the response candidates. Revision 1 does exactly that;
revision 2 fetches the fallback rows, sees they are non-empty, then
rebuilds relevantStatements from the errored search variable (null -> [])
and returns the fixed no-results answer, discarding the rows it just
found. At the concrete failing input below the fallback finds sampleRow,
revision 1 returns it as a source with confidence medium, and revision 2
returns the no-results answer with empty sources. -/
theorem ask_rev2_keyword_fallback_discarded :
    keywordSearch [sampleRow] "sky blue" = [sampleRow] ∧
    queryKeywords "The sky IS blue" = ["the", "sky", "blue"] ∧
    fallbackToDirectSearch [sampleRow] "sky blue" (.failure "relation error") =
      .ok (foundSummaryMsg 1) [toSource sampleRow] "medium" none ∧
    askVeritas2 "sky blue" [sampleRow] (.failure "relation error") (some "key")
        (.content "a fine answer") = .ok noResultsMsg [] "low" none := by
  exact ⟨by decide, by decide, rfl, rfl⟩
